import Mathlib

/-!
Verification of the report-aggregation and rendering engine of `app.py`
(functions `format_line`, `write_csv`, `write_summary` with its inner helper
`append_formatted_section`).

Values are modelled by their display text (`String`), since the program only
ever formats the default string rendering of each value.  Statistic records
are modelled per category, carrying exactly the fields the code reads through
the sampling-subsystem accessors (`get_label`, `get_current`, `get_min`,
`get_max`, `get_mean`, the leading discriminator `params[0]`, and for GPUs
also `params[1]`).  Fallible formatting (Python raises `IndexError` when
`str.format` receives fewer positional arguments than the format string has
replacement fields) is modelled with `Option`: `none` means the call raises
and no output file is produced.
-/

/-- Alignment marks accepted by `format_line` (`'<'`, `'>'`, `'^'`). -/
inductive Justify where
  | left
  | right
  | center
deriving DecidableEq, Repr

/-- A run of `n` pad spaces. -/
def spaces (n : Nat) : String :=
  String.mk (List.replicate n ' ')

/-- One column of `format_line`: the Python format spec `{:<w}` / `{:>w}` /
`{:^w}` pads the display text with spaces up to width `w` (no truncation;
centring puts the extra space on the right, as `str.format` does). -/
def formatCell (just : Justify) (width : Nat) (s : String) : String :=
  match just with
  | Justify.left => s ++ spaces (width - s.length)
  | Justify.right => spaces (width - s.length) ++ s
  | Justify.center =>
      spaces ((width - s.length) / 2) ++ s ++
        spaces ((width - s.length) - (width - s.length) / 2)

/-- `format_line` from `app.py`.  The format string is built from
`zip(justifications, column_widths)` and then applied to `*items`; when
`items` has fewer entries than the zipped slot list, `str.format` raises
`IndexError` (modelled as `none`); extra items are ignored. -/
def format_line (items : List String) (column_widths : List Nat)
    (justifications : List Justify) : Option String :=
  let slots := justifications.zip column_widths
  if items.length < slots.length then
    none
  else
    some (String.join ((slots.zip items).map
      (fun p => formatCell p.1.1 p.1.2 p.2)) ++ "\n")

/-- Formatting of every data row of a section, in order; the first failing
row aborts the whole rendering (the Python exception propagates). -/
def format_lines (column_widths : List Nat) (justifications : List Justify) :
    List (List String) → Option (List String)
  | [] => some []
  | r :: rs =>
      match format_line r column_widths justifications,
          format_lines column_widths justifications rs with
      | some l, some ls => some (l :: ls)
      | _, _ => none

/-- `append_formatted_section` from `write_summary`: nothing at all when
`data_rows` is empty, otherwise the title string (appended verbatim, no line
terminator of its own), the formatted header line, one formatted line per
data row, and the trailing blank separator line. -/
def append_formatted_section (title : String) (data_rows : List (List String))
    (headers : List String) (col_widths : List Nat)
    (justifications : List Justify) : Option (List String) :=
  if data_rows.isEmpty then
    some []
  else
    match format_line headers col_widths justifications,
        format_lines col_widths justifications data_rows with
    | some h, some rs => some (title :: h :: (rs ++ ["\n"]))
    | _, _ => none

/-- One flushed group of a multi-group category: the arguments of one
`append_formatted_section` call performed with a non-empty row list. -/
structure ReportGroup where
  title : String
  headers : List String
  rows : List (List String)
deriving DecidableEq, Repr

/-- Rendering of the flushed groups of one category, in flush order. -/
def renderGroups (col_widths : List Nat) (justifications : List Justify) :
    List ReportGroup → Option (List String)
  | [] => some []
  | g :: gs =>
      match append_formatted_section g.title g.rows g.headers col_widths
          justifications,
        renderGroups col_widths justifications gs with
      | some sec, some rest => some (sec ++ rest)
      | _, _ => none

/-- The contiguous discriminator runs of a list, in order. -/
def runsSplit (f : α → String) : List α → List (List α)
  | [] => []
  | x :: xs =>
      (x :: xs.takeWhile (fun y => f y == f x)) ::
        runsSplit f (xs.dropWhile (fun y => f y == f x))
termination_by l => l.length
decreasing_by
  have h : ∀ (p : α → Bool) (l : List α), (l.dropWhile p).length ≤ l.length := by
    intro p l
    induction l with
    | nil => simp [List.dropWhile]
    | cons a l ih =>
        simp only [List.dropWhile]
        split
        · exact Nat.le_succ_of_le ih
        · exact Nat.le_refl _
  simp only [List.length_cons]
  exact Nat.lt_succ_of_le (h _ _)

/-- One memory record: discriminator `params[0]` (channel/type) plus the
values read through `mem.get_label/get_min/get_max/get_mean`. -/
structure MemRec where
  mtype : String
  label : String
  vmin : String
  vmax : String
  vmean : String
deriving DecidableEq, Repr

/-- The memory category: `is_empty` flag (modelled from the spec: every
category collection carries an emptiness flag; `write_summary` never queries
it for memory), the SKU list (`get_mem_skus`) and the records. -/
structure MemCat where
  is_empty : Bool
  skus : List String
  recs : List MemRec

/-- One CPU-frequency record (`mhz`). -/
structure CpuRec where
  label : String
  vmin : String
  vmax : String
  vmean : String
deriving DecidableEq, Repr

/-- The CPU-frequency category, with `get_model`. -/
structure CpuFreqCat where
  model : String
  recs : List CpuRec

/-- One CPU-usage record (`usage`). -/
structure UsageRec where
  vmin : String
  vmax : String
  vmean : String
deriving DecidableEq, Repr

/-- One record of an ungrouped label/min/max/mean category
(`ctemps` and `watts`). -/
structure SimpleRec where
  label : String
  vmin : String
  vmax : String
  vmean : String
deriving DecidableEq, Repr

/-- An ungrouped category with an `is_empty` flag (`ctemps`, `watts`). -/
structure SimpleCat where
  is_empty : Bool
  recs : List SimpleRec

/-- One fan record: discriminator `params[0]` is the driver name. -/
structure FanRec where
  driver : String
  label : String
  current : String
  vmin : String
  vmax : String
  vmean : String
deriving DecidableEq, Repr

/-- The fan category. -/
structure FanCat where
  is_empty : Bool
  recs : List FanRec

/-- One GPU record: `params[0]` is the vendor, `params[1]` the device name;
`get_current` can be `None` (aggregate-only metrics). -/
structure GpuRec where
  vendor : String
  name : String
  label : String
  current : Option String
  vmin : String
  vmax : String
  vmean : String
deriving DecidableEq, Repr

/-- The GPU category with `get_driver_version` and `get_subven` (a falsy
subsystem is modelled as the empty string). -/
structure GpuCat where
  is_empty : Bool
  driver_version : String
  subven : String → String → String
  recs : List GpuRec

/-- One drive record: `params[0]` is the device id; `get_current` can be
`None`. -/
structure DriveRec where
  device : String
  label : String
  current : Option String
  vmin : String
  vmax : String
  vmean : String
deriving DecidableEq, Repr

/-- The drive category with `get_model`. -/
structure DriveCat where
  is_empty : Bool
  model : String → String
  recs : List DriveRec

/-- The CPU-usage category. -/
structure UsageCat where
  recs : List UsageRec

/-- The slice of `OutputData` read by `write_summary`. -/
structure OutputData where
  time : String
  run_time : String
  model_name : String
  mhz : CpuFreqCat
  usage : UsageCat
  ctemps : SimpleCat
  watts : SimpleCat
  fans : FanCat
  gpus : GpuCat
  drives : DriveCat
  mem : MemCat

def memColumnWidths : List Nat := [15, 20, 20, 20]

def memJusts : List Justify :=
  [Justify.left, Justify.right, Justify.right, Justify.right]

def cpuHeaders : List String := ["Core", "Min %:Mhz", "Max %:Mhz", "Mean %:Mhz"]

def cpuColumnWidths : List Nat := [15, 15, 15, 15]

def cpuJusts : List Justify :=
  [Justify.left, Justify.right, Justify.right, Justify.right]

def ctempsHeaders : List String := ["Core", "Min C", "Max C", "Mean C"]

def ctempsColumnWidths : List Nat := [15, 10, 10, 10]

def ctempsJusts : List Justify :=
  [Justify.left, Justify.right, Justify.right, Justify.right]

def wattsHeaders : List String := ["CPU", "Min W", "Max W", "Mean W"]

def wattsColumnWidths : List Nat := [10, 10, 10, 10]

def wattsJusts : List Justify :=
  [Justify.left, Justify.right, Justify.right, Justify.right]

def fanHeaders : List String :=
  ["Fan", "Current(RPM)", "Min(RPM)", "Max(RPM)", "Mean(RPM)"]

def fanColumnWidths : List Nat := [15, 15, 15, 15, 15]

def fanJusts : List Justify :=
  [Justify.left, Justify.right, Justify.right, Justify.right, Justify.right]

def gpuHeaders : List String := ["Data", "Current", "Min", "Max", "Mean"]

def gpuColumnWidths : List Nat := [15, 15, 15, 15, 15]

def gpuJusts : List Justify :=
  [Justify.left, Justify.right, Justify.right, Justify.right, Justify.right]

def driveHeaders : List String := ["Data", "Current", "Min", "Max", "Mean"]

def driveColumnWidths : List Nat := [15, 15, 15, 15, 15]

def driveJusts : List Justify :=
  [Justify.left, Justify.right, Justify.right, Justify.right, Justify.right]

/-- The data row built from one memory record. -/
def memRow (p : MemRec) : List String := [p.label, p.vmin, p.vmax, p.vmean]

/-- The memory grouping loop of `write_summary`: tracked discriminator
`mem_type` starts at `''`; on a discriminator change the accumulated rows are
flushed (when non-empty) under the headers captured when the group started,
then the headers are rebuilt from the new discriminator; the final group is
flushed after the loop. -/
def memLoop : String → List String → List (List String) → List MemRec →
    List ReportGroup
  | _, headers, rows, [] =>
      if rows.isEmpty then [] else [⟨"", headers, rows⟩]
  | mem_type, headers, rows, p :: ps =>
      if mem_type = p.mtype then
        memLoop mem_type headers (rows ++ [memRow p]) ps
      else if rows.isEmpty then
        memLoop p.mtype [p.mtype, "Min", "Max", "Mean"] [memRow p] ps
      else
        ⟨"", headers, rows⟩ ::
          memLoop p.mtype [p.mtype, "Min", "Max", "Mean"] [memRow p] ps

/-- The flushed memory groups. -/
def memGroups (recs : List MemRec) : List ReportGroup :=
  memLoop "" [] [] recs

/-- The memory block of the summary.  The code iterates `mem` without ever
consulting its emptiness flag. -/
def memSection (mem : MemCat) : Option (List String) :=
  renderGroups memColumnWidths memJusts (memGroups mem.recs)

/-- One composite `usage:freq` cell: the f-string
`f"{usage_value:>4}:{mhz_value:>5}"`. -/
def cpuCell (usageVal mhzVal : String) : String :=
  formatCell Justify.right 4 usageVal ++ ":" ++ formatCell Justify.right 5 mhzVal

/-- The combined frequency/usage row of one core. -/
def cpuRowFn (m : CpuRec) (u : UsageRec) : List String :=
  [m.label, cpuCell u.vmin m.vmin, cpuCell u.vmax m.vmax, cpuCell u.vmean m.vmean]

/-- All combined CPU rows: `zip(mhz, usage)` pairs records positionally. -/
def cpuRows (mhzRecs : List CpuRec) (usageRecs : List UsageRec) :
    List (List String) :=
  (mhzRecs.zip usageRecs).map (fun p => cpuRowFn p.1 p.2)

/-- The combined CPU frequency/usage block (ungrouped, a single
`append_formatted_section` call). -/
def cpuSection (mhzRecs : List CpuRec) (usageRecs : List UsageRec) :
    Option (List String) :=
  append_formatted_section "" (cpuRows mhzRecs usageRecs) cpuHeaders
    cpuColumnWidths cpuJusts

/-- The data row built from one ungrouped record. -/
def simpleRow (p : SimpleRec) : List String := [p.label, p.vmin, p.vmax, p.vmean]

/-- The CPU-temperature block: skipped entirely when `is_empty`. -/
def ctempsSection (c : SimpleCat) : Option (List String) :=
  if c.is_empty then
    some []
  else
    append_formatted_section "" (c.recs.map simpleRow) ctempsHeaders
      ctempsColumnWidths ctempsJusts

/-- The power block: skipped entirely when `is_empty`. -/
def wattsSection (c : SimpleCat) : Option (List String) :=
  if c.is_empty then
    some []
  else
    append_formatted_section "" (c.recs.map simpleRow) wattsHeaders
      wattsColumnWidths wattsJusts

/-- The data row built from one fan record. -/
def fanRow (p : FanRec) : List String :=
  [p.label, p.current, p.vmin, p.vmax, p.vmean]

/-- The fan grouping loop: tracked discriminator `driver` starts at `''`;
flush-on-change with the old driver as title, final flush with the last
driver. -/
def fanLoop : String → List (List String) → List FanRec → List ReportGroup
  | driver, rows, [] =>
      if rows.isEmpty then [] else [⟨driver, fanHeaders, rows⟩]
  | driver, rows, p :: ps =>
      if driver = p.driver then
        fanLoop driver (rows ++ [fanRow p]) ps
      else if rows.isEmpty then
        fanLoop p.driver [fanRow p] ps
      else
        ⟨driver, fanHeaders, rows⟩ :: fanLoop p.driver [fanRow p] ps

/-- The flushed fan groups. -/
def fanGroups (recs : List FanRec) : List ReportGroup :=
  fanLoop "" [] recs

/-- The fan block: skipped entirely when `is_empty`. -/
def fansSection (c : FanCat) : Option (List String) :=
  if c.is_empty then
    some []
  else
    renderGroups fanColumnWidths fanJusts (fanGroups c.recs)

/-- The single cell of a synthetic GPU device-name row:
`f"GPU: {name}\n{subsystem_info}"`. -/
def gpuNameCell (cat : GpuCat) (vendor name : String) : String :=
  let subsystem := cat.subven vendor name
  let subsystem_info :=
    if subsystem = "" then "" else "SubSystem: " ++ subsystem
  "GPU: " ++ name ++ "\n" ++ subsystem_info

/-- The GPU grouping loop.  Faithful to the code: `driver_version` is reset
to `""` at the top of every iteration, so a flush on vendor change always
uses the empty suffix; the value set when the vendor changes to `'nvidia'`
is only ever seen by the final flush (and only when the final record opened
the nvidia group).  Rows whose current value is `None` are omitted; a
synthetic one-cell name row is inserted whenever `params[1]` changes. -/
def gpuLoop (cat : GpuCat) : String → String → String → List (List String) →
    List GpuRec → List ReportGroup
  | vendor, _, driver_version, rows, [] =>
      if rows.isEmpty then [] else [⟨vendor ++ driver_version, gpuHeaders, rows⟩]
  | vendor, name, _, rows, p :: ps =>
      let dv0 := ""
      let flushed : List ReportGroup :=
        if vendor = p.vendor then []
        else if rows.isEmpty then []
        else [⟨vendor ++ dv0, gpuHeaders, rows⟩]
      let rows1 :=
        if vendor = p.vendor then rows
        else if rows.isEmpty then rows
        else []
      let vendor1 := p.vendor
      let dv1 :=
        if vendor = p.vendor then dv0
        else if vendor1 = "nvidia" then " - " ++ cat.driver_version
        else dv0
      let rows2 :=
        if name = p.name then rows1
        else rows1 ++ [[gpuNameCell cat vendor1 p.name]]
      let rows3 :=
        match p.current with
        | some c => rows2 ++ [[p.label, c, p.vmin, p.vmax, p.vmean]]
        | none => rows2
      flushed ++ gpuLoop cat vendor1 p.name dv1 rows3 ps

/-- The flushed GPU groups. -/
def gpuGroups (cat : GpuCat) : List ReportGroup :=
  gpuLoop cat "" "" "" [] cat.recs

/-- The GPU block: skipped entirely when `is_empty`.  A non-empty flag with
an empty iterable raises `NameError` in the code (`driver_version` is first
assigned inside the loop but read by the final flush), modelled as `none`. -/
def gpusSection (cat : GpuCat) : Option (List String) :=
  if cat.is_empty then
    some []
  else
    match cat.recs with
    | [] => none
    | _ :: _ => renderGroups gpuColumnWidths gpuJusts (gpuGroups cat)

/-- The title of one drive group:
`f"Device: {drive}\nDrive Model: {drives.get_model(drive)}"`. -/
def driveTitle (cat : DriveCat) (drive : String) : String :=
  "Device: " ++ drive ++ "\nDrive Model: " ++ cat.model drive

/-- Appending one drive record's row, omitted when its current value is
`None`. -/
def driveAppend (rows : List (List String)) (p : DriveRec) :
    List (List String) :=
  match p.current with
  | some c => rows ++ [[p.label, c, p.vmin, p.vmax, p.vmean]]
  | none => rows

/-- The drive grouping loop: tracked discriminator `drive` starts at `''`;
flush-on-change with the old device in the title, final flush with the last
device. -/
def driveLoop (cat : DriveCat) : String → List (List String) →
    List DriveRec → List ReportGroup
  | drive, rows, [] =>
      if rows.isEmpty then [] else [⟨driveTitle cat drive, driveHeaders, rows⟩]
  | drive, rows, p :: ps =>
      if drive = p.device then
        driveLoop cat drive (driveAppend rows p) ps
      else if rows.isEmpty then
        driveLoop cat p.device (driveAppend rows p) ps
      else
        ⟨driveTitle cat drive, driveHeaders, rows⟩ ::
          driveLoop cat p.device (driveAppend [] p) ps

/-- The flushed drive groups. -/
def drivesGroups (cat : DriveCat) : List ReportGroup :=
  driveLoop cat "" [] cat.recs

/-- The drive block: skipped entirely when `is_empty`. -/
def drivesSection (cat : DriveCat) : Option (List String) :=
  if cat.is_empty then
    some []
  else
    renderGroups driveColumnWidths driveJusts (drivesGroups cat)

/-- The row built from one drive record actually emitted (its current value
is present). -/
def driveRow (p : DriveRec) : List String :=
  [p.label, p.current.getD "", p.vmin, p.vmax, p.vmean]

/-- The preamble of the summary document: Summary/Model/Start Time, then
Runtime/CPU model, then the memory SKU list. -/
def preambleLines (od : OutputData) : List String :=
  ["Summary:\nModel: " ++ od.model_name ++ "\nStart Time: " ++ od.time ++ "\n",
   "Runtime: " ++ od.run_time ++ "\nCPU: " ++ od.mhz.model ++ "\n",
   "Memory SKUs:\n"] ++
    od.mem.skus.map (fun sku => "DIMM: " ++ sku ++ "\n")

/-- `write_summary` from `app.py`: preamble, then the category blocks in
fixed order, concatenated and written in one `"".join(lines)`.  Any
formatting exception aborts the call before the file is opened, so `none`
means no document is produced at all. -/
def write_summary (od : OutputData) : Option String :=
  (memSection od.mem).bind fun memL =>
  (cpuSection od.mhz.recs od.usage.recs).bind fun cpuL =>
  (ctempsSection od.ctemps).bind fun ctL =>
  (wattsSection od.watts).bind fun wL =>
  (fansSection od.fans).bind fun fL =>
  (gpusSection od.gpus).bind fun gL =>
  (drivesSection od.drives).bind fun dL =>
  some (String.join (preambleLines od ++ memL ++ cpuL ++ ctL ++ wL ++ fL ++
    gL ++ dL))

/-- Whether the `csv` module's `QUOTE_MINIMAL` dialect quotes a field. -/
def needsQuote (s : String) : Bool :=
  s.any (fun c => c == ',' || c == '"' || c == '\r' || c == '\n')

/-- Doubling of embedded quote characters. -/
def escapeQuotes (s : String) : String :=
  String.mk ((s.data.map (fun c => if c == '"' then ['"', '"'] else [c])).flatten)

/-- One serialized CSV field. -/
def csvField (s : String) : String :=
  if needsQuote s then "\"" ++ escapeQuotes s ++ "\"" else s

/-- One serialized CSV record, with the module's `\r\n` terminator; a row
consisting of a single empty field is quoted, as the module does. -/
def csvRow (row : List String) : String :=
  (if row = [""] then "\"\"" else String.intercalate "," (row.map csvField)) ++
    "\r\n"

/-- `write_csv` from `app.py`: the file (modelled as `none` when absent) is
opened in append mode, created if absent, and exactly one serialized row is
appended to whatever content it already holds. -/
def write_csv (file : Option String) (data : List String) : Option String :=
  some (file.getD "" ++ csvRow data)

/-- A memory record carrying only a discriminator; used to state invariants
of the grouping loops. -/
def memProbe (mt : String) : MemRec := ⟨mt, "", "", "", ""⟩

/-- A fan record carrying only a discriminator. -/
def fanProbe (driver : String) : FanRec := ⟨driver, "", "", "", "", ""⟩

/-- A drive record carrying a discriminator and a presence bit for the
current value. -/
def driveProbe (device : String) (present : Bool) : DriveRec :=
  ⟨device, "", if present then some "" else none, "", "", ""⟩

/-- The number of discriminator runs of a drive record list that contain at
least one record with a present current value. -/
def countPresentRuns (recs : List DriveRec) : Nat :=
  ((runsSplit (fun d => d.device) recs).filter
    (fun run => run.any (fun d => d.current.isSome))).length

/-! ### Helper lemmas -/

theorem string_foldl_append (l : List String) :
    ∀ a : String, l.foldl (fun r s => r ++ s) a =
      a ++ l.foldl (fun r s => r ++ s) "" := by
  induction l with
  | nil => intro a; simp
  | cons x l ih =>
      intro a
      simp only [List.foldl_cons]
      rw [ih (a ++ x), ih ("" ++ x), String.empty_append, String.append_assoc]

theorem join_cons (s : String) (l : List String) :
    String.join (s :: l) = s ++ String.join l := by
  simp only [String.join, List.foldl_cons]
  rw [string_foldl_append, String.empty_append]

theorem join_append (l₁ l₂ : List String) :
    String.join (l₁ ++ l₂) = String.join l₁ ++ String.join l₂ := by
  simp only [String.join, List.foldl_append]
  rw [string_foldl_append]

theorem format_line_isSome_iff (items : List String) (ws : List Nat)
    (js : List Justify) :
    (format_line items ws js).isSome ↔ (js.zip ws).length ≤ items.length := by
  simp only [format_line]
  split
  · simpa using (by omega : ¬ (js.zip ws).length ≤ items.length)
  · simpa using (by omega : (js.zip ws).length ≤ items.length)

theorem format_line_eq_none_of_lt (items : List String) (ws : List Nat)
    (js : List Justify) (h : items.length < (js.zip ws).length) :
    format_line items ws js = none := by
  simp only [format_line]
  rw [if_pos h]

theorem zip_take_eq (l₁ : List α) :
    ∀ l₂ : List β, l₁.zip (l₂.take l₁.length) = l₁.zip l₂ := by
  induction l₁ with
  | nil => intro l₂; simp
  | cons x l ih =>
      intro l₂
      cases l₂ with
      | nil => simp
      | cons y l₂ => simp [ih]

theorem format_lines_length (ws : List Nat) (js : List Justify) :
    ∀ (rows : List (List String)) (ls : List String),
      format_lines ws js rows = some ls → ls.length = rows.length := by
  intro rows
  induction rows with
  | nil => intro ls h; simp only [format_lines, Option.some.injEq] at h; simp [← h]
  | cons r rs ih =>
      intro ls h
      simp only [format_lines] at h
      cases hl : format_line r ws js with
      | none => rw [hl] at h; cases h
      | some l =>
          rw [hl] at h
          cases hls : format_lines ws js rs with
          | none => rw [hls] at h; cases h
          | some ls' =>
              rw [hls] at h
              cases h
              simp [ih ls' hls]

theorem format_lines_isSome (ws : List Nat) (js : List Justify)
    (rows : List (List String))
    (h : ∀ r ∈ rows, (js.zip ws).length ≤ r.length) :
    ∃ ls, format_lines ws js rows = some ls := by
  induction rows with
  | nil => exact ⟨[], rfl⟩
  | cons r rs ih =>
      obtain ⟨ls, hls⟩ := ih (fun r hr => h r (List.mem_cons_of_mem _ hr))
      have hr : (format_line r ws js).isSome :=
        (format_line_isSome_iff r ws js).2 (h r (List.mem_cons_self _ _))
      obtain ⟨l, hl⟩ := Option.isSome_iff_exists.1 hr
      exact ⟨l :: ls, by simp only [format_lines, hl, hls]⟩

theorem format_lines_eq_none (ws : List Nat) (js : List Justify) :
    ∀ (rows : List (List String)) (r : List String), r ∈ rows →
      format_line r ws js = none → format_lines ws js rows = none := by
  intro rows
  induction rows with
  | nil => intro r hr; cases hr
  | cons x rs ih =>
      intro r hr hnone
      rcases List.mem_cons.1 hr with rfl | hmem
      · simp only [format_lines, hnone]
      · simp only [format_lines, ih r hmem hnone]
        cases format_line x ws js <;> rfl

theorem append_formatted_section_nil (t : String) (hd : List String)
    (ws : List Nat) (js : List Justify) :
    append_formatted_section t [] hd ws js = some [] := by
  simp [append_formatted_section]

theorem append_formatted_section_eq_none (t : String)
    (rows : List (List String)) (hd : List String) (ws : List Nat)
    (js : List Justify) (r : List String) (hr : r ∈ rows)
    (hnone : format_line r ws js = none) :
    append_formatted_section t rows hd ws js = none := by
  have hne : rows ≠ [] := List.ne_nil_of_mem hr
  simp only [append_formatted_section, List.isEmpty_eq_false.2 hne,
    Bool.false_eq_true, if_false]
  rw [format_lines_eq_none ws js rows r hr hnone]
  cases format_line hd ws js <;> rfl

theorem renderGroups_cons_none (ws : List Nat) (js : List Justify)
    (g : ReportGroup) (gs : List ReportGroup)
    (h : append_formatted_section g.title g.rows g.headers ws js = none) :
    renderGroups ws js (g :: gs) = none := by
  simp only [renderGroups, h]

@[simp] theorem memProbe_mtype (mt : String) : (memProbe mt).mtype = mt := rfl

@[simp] theorem fanProbe_driver (d : String) : (fanProbe d).driver = d := rfl

@[simp] theorem driveProbe_device (d : String) (b : Bool) :
    (driveProbe d b).device = d := rfl

@[simp] theorem driveProbe_isSome (d : String) (b : Bool) :
    (driveProbe d b).current.isSome = b := by
  cases b <;> rfl

theorem memLoop_flatten :
    ∀ (ps : List MemRec) (mt : String) (hd : List String)
      (rows : List (List String)),
      ((memLoop mt hd rows ps).map ReportGroup.rows).flatten =
        rows ++ ps.map memRow := by
  intro ps
  induction ps with
  | nil =>
      intro mt hd rows
      by_cases h : rows.isEmpty
      · simp [memLoop, h, List.isEmpty_iff.1 h]
      · simp [memLoop, h]
  | cons p ps ih =>
      intro mt hd rows
      by_cases h1 : mt = p.mtype
      · rw [show memLoop mt hd rows (p :: ps) =
            memLoop mt hd (rows ++ [memRow p]) ps by simp [memLoop, h1]]
        rw [ih]
        simp
      · by_cases h2 : rows.isEmpty
        · rw [show memLoop mt hd rows (p :: ps) =
              memLoop p.mtype [p.mtype, "Min", "Max", "Mean"] [memRow p] ps by
                simp [memLoop, h1, h2]]
          rw [ih]
          simp [List.isEmpty_iff.1 h2]
        · rw [show memLoop mt hd rows (p :: ps) =
              ⟨"", hd, rows⟩ ::
                memLoop p.mtype [p.mtype, "Min", "Max", "Mean"] [memRow p] ps by
                simp [memLoop, h1, h2]]
          simp only [List.map_cons, List.flatten_cons]
          rw [ih]
          simp

theorem memLoop_length :
    ∀ (ps : List MemRec) (mt : String) (hd : List String)
      (rows : List (List String)), rows.isEmpty = false →
      (memLoop mt hd rows ps).length =
        (runsSplit (fun r => r.mtype) (memProbe mt :: ps)).length := by
  intro ps
  induction ps with
  | nil =>
      intro mt hd rows h
      simp [memLoop, h, runsSplit]
  | cons p ps ih =>
      intro mt hd rows h
      by_cases h1 : mt = p.mtype
      · subst h1
        rw [show memLoop p.mtype hd rows (p :: ps) =
            memLoop p.mtype hd (rows ++ [memRow p]) ps by simp [memLoop]]
        rw [ih _ _ _ (by simp)]
        simp [runsSplit, List.dropWhile_cons]
      · rw [show memLoop mt hd rows (p :: ps) =
            ⟨"", hd, rows⟩ ::
              memLoop p.mtype [p.mtype, "Min", "Max", "Mean"] [memRow p] ps by
              simp [memLoop, h1, h]]
        simp only [List.length_cons]
        rw [ih _ _ _ (by simp)]
        simp [runsSplit, List.dropWhile_cons, Ne.symm h1]

theorem fanLoop_flatten :
    ∀ (ps : List FanRec) (driver : String) (rows : List (List String)),
      ((fanLoop driver rows ps).map ReportGroup.rows).flatten =
        rows ++ ps.map fanRow := by
  intro ps
  induction ps with
  | nil =>
      intro driver rows
      by_cases h : rows.isEmpty
      · simp [fanLoop, h, List.isEmpty_iff.1 h]
      · simp [fanLoop, h]
  | cons p ps ih =>
      intro driver rows
      by_cases h1 : driver = p.driver
      · rw [show fanLoop driver rows (p :: ps) =
            fanLoop driver (rows ++ [fanRow p]) ps by simp [fanLoop, h1]]
        rw [ih]
        simp
      · by_cases h2 : rows.isEmpty
        · rw [show fanLoop driver rows (p :: ps) =
              fanLoop p.driver [fanRow p] ps by simp [fanLoop, h1, h2]]
          rw [ih]
          simp [List.isEmpty_iff.1 h2]
        · rw [show fanLoop driver rows (p :: ps) =
              ⟨driver, fanHeaders, rows⟩ :: fanLoop p.driver [fanRow p] ps by
                simp [fanLoop, h1, h2]]
          simp only [List.map_cons, List.flatten_cons]
          rw [ih]
          simp

theorem fanLoop_length :
    ∀ (ps : List FanRec) (driver : String) (rows : List (List String)),
      rows.isEmpty = false →
      (fanLoop driver rows ps).length =
        (runsSplit (fun r => r.driver) (fanProbe driver :: ps)).length := by
  intro ps
  induction ps with
  | nil =>
      intro driver rows h
      simp [fanLoop, h, runsSplit]
  | cons p ps ih =>
      intro driver rows h
      by_cases h1 : driver = p.driver
      · subst h1
        rw [show fanLoop p.driver rows (p :: ps) =
            fanLoop p.driver (rows ++ [fanRow p]) ps by simp [fanLoop]]
        rw [ih _ _ (by simp)]
        simp [runsSplit, List.dropWhile_cons]
      · rw [show fanLoop driver rows (p :: ps) =
            ⟨driver, fanHeaders, rows⟩ :: fanLoop p.driver [fanRow p] ps by
              simp [fanLoop, h1, h]]
        simp only [List.length_cons]
        rw [ih _ _ (by simp)]
        simp [runsSplit, List.dropWhile_cons, Ne.symm h1]

theorem driveLoop_flatten (cat : DriveCat) :
    ∀ (ps : List DriveRec) (drive : String) (rows : List (List String)),
      ((driveLoop cat drive rows ps).map ReportGroup.rows).flatten =
        rows ++ (ps.filter (fun d => d.current.isSome)).map driveRow := by
  intro ps
  induction ps with
  | nil =>
      intro drive rows
      by_cases h : rows.isEmpty
      · simp [driveLoop, h, List.isEmpty_iff.1 h]
      · simp [driveLoop, h]
  | cons p ps ih =>
      intro drive rows
      by_cases h1 : drive = p.device
      · rw [show driveLoop cat drive rows (p :: ps) =
            driveLoop cat drive (driveAppend rows p) ps by
              simp [driveLoop, h1]]
        rw [ih]
        cases hc : p.current with
        | some c => simp [driveAppend, hc, driveRow, List.filter_cons]
        | none => simp [driveAppend, hc, List.filter_cons]
      · by_cases h2 : rows.isEmpty
        · rw [show driveLoop cat drive rows (p :: ps) =
              driveLoop cat p.device (driveAppend rows p) ps by
                simp [driveLoop, h1, h2]]
          rw [ih]
          cases hc : p.current with
          | some c =>
              simp [driveAppend, hc, driveRow, List.isEmpty_iff.1 h2,
                List.filter_cons]
          | none => simp [driveAppend, hc, List.isEmpty_iff.1 h2, List.filter_cons]
        · rw [show driveLoop cat drive rows (p :: ps) =
              ⟨driveTitle cat drive, driveHeaders, rows⟩ ::
                driveLoop cat p.device (driveAppend [] p) ps by
                  simp [driveLoop, h1, h2]]
          simp only [List.map_cons, List.flatten_cons]
          rw [ih]
          cases hc : p.current with
          | some c => simp [driveAppend, hc, driveRow, List.filter_cons]
          | none => simp [driveAppend, hc, List.filter_cons]

theorem countPresentRuns_cons (p : DriveRec) (ps : List DriveRec) :
    countPresentRuns (p :: ps) =
      countPresentRuns (ps.dropWhile (fun y => y.device == p.device)) +
        (if (p :: ps.takeWhile (fun y => y.device == p.device)).any
            (fun d => d.current.isSome) then 1 else 0) := by
  simp only [countPresentRuns, runsSplit, List.filter_cons]
  split <;> simp [Nat.add_comm]

theorem countPresentRuns_probe_merge (b : Bool) (p : DriveRec)
    (ps : List DriveRec) :
    countPresentRuns (driveProbe p.device (b || p.current.isSome) :: ps) =
      countPresentRuns (driveProbe p.device b :: p :: ps) := by
  rw [countPresentRuns_cons, countPresentRuns_cons]
  simp [List.takeWhile_cons, List.dropWhile_cons, Bool.or_assoc]

theorem countPresentRuns_cons_probe (p : DriveRec) (ps : List DriveRec) :
    countPresentRuns (driveProbe p.device p.current.isSome :: ps) =
      countPresentRuns (p :: ps) := by
  rw [countPresentRuns_cons, countPresentRuns_cons]
  simp

theorem countPresentRuns_probe_false (d : String) (recs : List DriveRec) :
    countPresentRuns (driveProbe d false :: recs) = countPresentRuns recs := by
  cases recs with
  | nil => simp [countPresentRuns, runsSplit]
  | cons p ps =>
      by_cases h : p.device = d
      · subst h
        rw [countPresentRuns_cons, countPresentRuns_cons]
        simp [List.takeWhile_cons, List.dropWhile_cons]
      · rw [countPresentRuns_cons]
        simp [List.takeWhile_cons, List.dropWhile_cons, h]

theorem countPresentRuns_probe_true_of_ne (d : String) (p : DriveRec)
    (ps : List DriveRec) (h : p.device ≠ d) :
    countPresentRuns (driveProbe d true :: p :: ps) =
      countPresentRuns (p :: ps) + 1 := by
  rw [countPresentRuns_cons]
  simp [List.takeWhile_cons, List.dropWhile_cons, h]

theorem driveLoop_length (cat : DriveCat) :
    ∀ (ps : List DriveRec) (drive : String) (rows : List (List String)),
      (driveLoop cat drive rows ps).length =
        countPresentRuns (driveProbe drive (!rows.isEmpty) :: ps) := by
  intro ps
  induction ps with
  | nil =>
      intro drive rows
      by_cases h : rows.isEmpty
      · simp [driveLoop, h, countPresentRuns, runsSplit]
      · simp [driveLoop, h, countPresentRuns, runsSplit,
          (by simpa using h : rows.isEmpty = false)]
  | cons p ps ih =>
      intro drive rows
      have hflag : ∀ rs : List (List String),
          (!(driveAppend rs p).isEmpty) = (!rs.isEmpty || p.current.isSome) := by
        intro rs
        cases hc : p.current with
        | some c => simp [driveAppend, hc]
        | none => simp [driveAppend, hc]
      by_cases h1 : drive = p.device
      · subst h1
        rw [show driveLoop cat p.device rows (p :: ps) =
            driveLoop cat p.device (driveAppend rows p) ps by
              simp [driveLoop]]
        rw [ih, hflag, countPresentRuns_probe_merge]
      · by_cases h2 : rows = []
        · have h2e : rows.isEmpty = true := List.isEmpty_iff.2 h2
          rw [show driveLoop cat drive rows (p :: ps) =
              driveLoop cat p.device (driveAppend rows p) ps by
                simp [driveLoop, h1, h2e]]
          rw [ih, hflag, h2e]
          simp only [Bool.not_true, Bool.false_or]
          rw [countPresentRuns_cons_probe, countPresentRuns_probe_false]
        · have h2e : rows.isEmpty = false := List.isEmpty_eq_false.2 h2
          rw [show driveLoop cat drive rows (p :: ps) =
              ⟨driveTitle cat drive, driveHeaders, rows⟩ ::
                driveLoop cat p.device (driveAppend [] p) ps by
                  simp [driveLoop, h1, h2e]]
          simp only [List.length_cons]
          rw [ih, hflag]
          simp only [List.isEmpty_nil, Bool.not_true, Bool.false_or]
          rw [countPresentRuns_cons_probe, h2e]
          simp only [Bool.not_false]
          rw [countPresentRuns_probe_true_of_ne _ _ _ (Ne.symm h1)]

theorem memGroups_length (recs : List MemRec) (h : recs ≠ []) :
    (memGroups recs).length = (runsSplit (fun r => r.mtype) recs).length := by
  match recs, h with
  | p :: ps, _ =>
      by_cases h1 : "" = p.mtype
      · rw [show memGroups (p :: ps) = memLoop "" [] [memRow p] ps by
            simp [memGroups, memLoop, h1]]
        rw [memLoop_length _ _ _ _ (by simp)]
        simp [runsSplit, ← h1]
      · rw [show memGroups (p :: ps) =
            memLoop p.mtype [p.mtype, "Min", "Max", "Mean"] [memRow p] ps by
              simp [memGroups, memLoop, h1]]
        rw [memLoop_length _ _ _ _ (by simp)]
        simp [runsSplit]

theorem memGroups_rows (recs : List MemRec) :
    ((memGroups recs).map ReportGroup.rows).flatten = recs.map memRow := by
  simpa using memLoop_flatten recs "" [] []

theorem fanGroups_length (recs : List FanRec) (h : recs ≠ []) :
    (fanGroups recs).length = (runsSplit (fun r => r.driver) recs).length := by
  match recs, h with
  | p :: ps, _ =>
      by_cases h1 : "" = p.driver
      · rw [show fanGroups (p :: ps) = fanLoop "" [fanRow p] ps by
            simp [fanGroups, fanLoop, h1]]
        rw [fanLoop_length _ _ _ (by simp)]
        simp [runsSplit, ← h1]
      · rw [show fanGroups (p :: ps) = fanLoop p.driver [fanRow p] ps by
            simp [fanGroups, fanLoop, h1]]
        rw [fanLoop_length _ _ _ (by simp)]
        simp [runsSplit]

theorem fanGroups_rows (recs : List FanRec) :
    ((fanGroups recs).map ReportGroup.rows).flatten = recs.map fanRow := by
  simpa using fanLoop_flatten recs "" []

theorem drivesGroups_length (cat : DriveCat) :
    (drivesGroups cat).length = countPresentRuns cat.recs := by
  unfold drivesGroups
  rw [driveLoop_length]
  simp only [List.isEmpty_nil, Bool.not_true]
  rw [countPresentRuns_probe_false]

theorem drivesGroups_rows (cat : DriveCat) :
    ((drivesGroups cat).map ReportGroup.rows).flatten =
      (cat.recs.filter (fun d => d.current.isSome)).map driveRow := by
  simpa using driveLoop_flatten cat cat.recs "" []

theorem gpu_one_cell_row_fails (cell : String) :
    format_line [cell] gpuColumnWidths gpuJusts = none := by
  apply format_line_eq_none_of_lt
  simp [gpuColumnWidths, gpuJusts]

theorem gpuLoop_render_none (cat : GpuCat) :
    ∀ (ps : List GpuRec) (vendor name dv : String)
      (rows : List (List String)) (r : List String), r ∈ rows →
      format_line r gpuColumnWidths gpuJusts = none →
      renderGroups gpuColumnWidths gpuJusts (gpuLoop cat vendor name dv rows ps) =
        none := by
  intro ps
  induction ps with
  | nil =>
      intro vendor name dv rows r hr hnone
      have hne : rows.isEmpty = false :=
        List.isEmpty_eq_false.2 (List.ne_nil_of_mem hr)
      rw [show gpuLoop cat vendor name dv rows [] =
          [⟨vendor ++ dv, gpuHeaders, rows⟩] by simp [gpuLoop, hne]]
      exact renderGroups_cons_none _ _ _ _
        (append_formatted_section_eq_none _ _ _ _ _ r hr hnone)
  | cons p ps ih =>
      intro vendor name dv rows r hr hnone
      by_cases h1 : vendor = p.vendor
      · rw [show gpuLoop cat vendor name dv rows (p :: ps) =
            gpuLoop cat p.vendor p.name ""
              (match p.current with
               | some c =>
                   (if name = p.name then rows
                    else rows ++ [[gpuNameCell cat p.vendor p.name]]) ++
                     [[p.label, c, p.vmin, p.vmax, p.vmean]]
               | none =>
                   if name = p.name then rows
                   else rows ++ [[gpuNameCell cat p.vendor p.name]]) ps by
              simp [gpuLoop, h1]]
        refine ih _ _ _ _ r ?_ hnone
        cases hc : p.current with
        | some c =>
            by_cases hn : name = p.name <;> simp [hn, hr]
        | none =>
            by_cases hn : name = p.name <;> simp [hn, hr]
      · have hne : rows.isEmpty = false :=
          List.isEmpty_eq_false.2 (List.ne_nil_of_mem hr)
        rw [show gpuLoop cat vendor name dv rows (p :: ps) =
            ⟨vendor ++ "", gpuHeaders, rows⟩ ::
              gpuLoop cat p.vendor p.name
                (if p.vendor = "nvidia" then " - " ++ cat.driver_version else "")
                (match p.current with
                 | some c =>
                     (if name = p.name then []
                      else [[gpuNameCell cat p.vendor p.name]]) ++
                       [[p.label, c, p.vmin, p.vmax, p.vmean]]
                 | none =>
                     if name = p.name then []
                     else [[gpuNameCell cat p.vendor p.name]]) ps by
              simp [gpuLoop, h1, hne]]
        exact renderGroups_cons_none _ _ _ _
          (append_formatted_section_eq_none _ _ _ _ _ r hr hnone)

theorem gpusSection_eq_none (cat : GpuCat) (p : GpuRec) (ps : List GpuRec)
    (hempty : cat.is_empty = false) (hrecs : cat.recs = p :: ps)
    (hname : p.name ≠ "") :
    gpusSection cat = none := by
  unfold gpusSection
  rw [hempty, hrecs]
  simp only [Bool.false_eq_true, if_false]
  unfold gpuGroups
  rw [hrecs]
  rw [show gpuLoop cat "" "" "" [] (p :: ps) =
      gpuLoop cat p.vendor p.name
        (if ("" : String) = p.vendor then ""
         else if p.vendor = "nvidia" then " - " ++ cat.driver_version else "")
        (match p.current with
         | some c =>
             [[gpuNameCell cat p.vendor p.name]] ++
               [[p.label, c, p.vmin, p.vmax, p.vmean]]
         | none => [[gpuNameCell cat p.vendor p.name]]) ps by
        by_cases h1 : ("" : String) = p.vendor
        · have h2 : ¬ (p.vendor = p.name) := by
            rw [← h1]
            exact Ne.symm hname
          simp [gpuLoop, h1, h2]
        · simp [gpuLoop, h1, Ne.symm hname]]
  apply gpuLoop_render_none cat ps _ _ _ _ [gpuNameCell cat p.vendor p.name]
  · cases hc : p.current <;> simp
  · exact gpu_one_cell_row_fails _

/-! ### Claim theorems -/

/-- Claim C2 counterexample: the memory section is rendered purely from the
category's iterable, never consulting its emptiness flag, so a memory
category whose flag is true but which still holds a residual record emits
lines. -/
theorem memSection_ignores_empty_flag_cex :
    (⟨true, [], [⟨"DDR5", "ch0", "10", "20", "15"⟩]⟩ : MemCat).is_empty = true ∧
    memSection ⟨true, [], [⟨"DDR5", "ch0", "10", "20", "15"⟩]⟩ ≠ some [] := by
  exact ⟨rfl, by decide⟩

/-- Claim C2 (amended): for the five categories the code guards with an
`is_empty` check (CPU temperature, power, fans, GPUs, drives), a true flag
yields no output lines for the category, regardless of residual records; the
memory and CPU frequency/usage sections are rendered unconditionally from
their iterables. -/
theorem guarded_sections_empty_amended :
    (∀ c : SimpleCat, c.is_empty = true → ctempsSection c = some []) ∧
    (∀ c : SimpleCat, c.is_empty = true → wattsSection c = some []) ∧
    (∀ c : FanCat, c.is_empty = true → fansSection c = some []) ∧
    (∀ c : GpuCat, c.is_empty = true → gpusSection c = some []) ∧
    (∀ c : DriveCat, c.is_empty = true → drivesSection c = some []) := by
  refine ⟨?_, ?_, ?_, ?_, ?_⟩ <;>
    intro c h <;>
    simp [ctempsSection, wattsSection, fansSection, gpusSection, drivesSection, h]

/-- Witness for the amended Claim C2 at concrete categories that are flagged
empty yet hold residual records. -/
theorem guarded_sections_empty_amended_witness :
    ctempsSection ⟨true, [⟨"Core 0", "1", "2", "3"⟩]⟩ = some [] ∧
    wattsSection ⟨true, [⟨"CPU", "1", "2", "3"⟩]⟩ = some [] ∧
    fansSection ⟨true, [⟨"drv", "fan1", "1", "2", "3", "4"⟩]⟩ = some [] ∧
    gpusSection ⟨true, "v", fun _ _ => "",
      [⟨"amd", "g", "t", none, "1", "2", "3"⟩]⟩ = some [] ∧
    drivesSection ⟨true, fun _ => "", [⟨"sda", "t", none, "1", "2", "3"⟩]⟩ =
      some [] :=
  ⟨guarded_sections_empty_amended.1 _ rfl,
   guarded_sections_empty_amended.2.1 _ rfl,
   guarded_sections_empty_amended.2.2.1 _ rfl,
   guarded_sections_empty_amended.2.2.2.1 _ rfl,
   guarded_sections_empty_amended.2.2.2.2 _ rfl⟩

/-- Claim C3 (code bug): `driver_version` is reset to the empty string at the
top of every loop iteration, so the value assigned when the vendor changes to
nvidia is dead except on the final flush of a group opened by the very last
record.  With two records of one nvidia group the emitted title is plain
`"nvidia"`, with no driver-version suffix; rendering then fails on the
synthetic device-name row anyway. -/
theorem gpu_title_missing_suffix :
    (gpuGroups ⟨false, "555.0", fun _ _ => "",
        [⟨"nvidia", "g1", "temp", some "50", "40", "60", "50"⟩,
         ⟨"nvidia", "g1", "fan", some "1", "1", "1", "1"⟩]⟩).map
        ReportGroup.title = ["nvidia"] ∧
    gpusSection ⟨false, "555.0", fun _ _ => "",
        [⟨"nvidia", "g1", "temp", some "50", "40", "60", "50"⟩,
         ⟨"nvidia", "g1", "fan", some "1", "1", "1", "1"⟩]⟩ = none := by
  exact ⟨rfl, rfl⟩

/-- Claim C4 counterexample: the title is appended without a line terminator,
so a non-empty title is glued to the header line instead of standing on its
own line. -/
theorem append_formatted_section_title_cex :
    String.join
        ((append_formatted_section "T" [["a"]] ["H"] [3] [Justify.left]).getD []) =
      "TH  \na  \n\n" ∧
    "TH  \na  \n\n" ≠ "T" ++ "\n" ++ "H  \n" ++ "a  \n" ++ "\n" := by
  decide

/-- Claim C4 (amended): with an empty row sequence the section emits nothing;
with a non-empty row sequence it emits the title verbatim (no line terminator
of its own, so a non-empty title runs into the header line and an empty title
contributes nothing), the formatted header line, one formatted line per data
row, and one trailing blank separator line. -/
theorem append_formatted_section_amended :
    (∀ (t : String) (hd : List String) (ws : List Nat) (js : List Justify),
      append_formatted_section t [] hd ws js = some []) ∧
    (∀ (t : String) (rows : List (List String)) (hd : List String)
        (ws : List Nat) (js : List Justify) (hl : String) (rls : List String),
      rows ≠ [] → format_line hd ws js = some hl →
      format_lines ws js rows = some rls →
      append_formatted_section t rows hd ws js =
          some (t :: hl :: (rls ++ ["\n"])) ∧
        rls.length = rows.length ∧
        String.join (t :: hl :: (rls ++ ["\n"])) =
          t ++ (hl ++ (String.join rls ++ "\n"))) := by
  constructor
  · exact append_formatted_section_nil
  · intro t rows hd ws js hl rls hne hhl hrls
    refine ⟨?_, format_lines_length ws js rows rls hrls, ?_⟩
    · simp only [append_formatted_section, List.isEmpty_eq_false.2 hne,
        Bool.false_eq_true, if_false, hhl, hrls]
    · rw [join_cons, join_cons, join_append, join_cons]
      have h0 : String.join [] = "" := rfl
      rw [h0, String.append_empty]

/-- Witness for the amended Claim C4 at a concrete one-row section. -/
theorem append_formatted_section_amended_witness :
    append_formatted_section "T" [["a"]] ["H"] [3] [Justify.left] =
        some ("T" :: "H  \n" :: (["a  \n"] ++ ["\n"])) ∧
      ["a  \n"].length = [["a"]].length ∧
      String.join ("T" :: "H  \n" :: (["a  \n"] ++ ["\n"])) =
        "T" ++ ("H  \n" ++ (String.join ["a  \n"] ++ "\n")) :=
  append_formatted_section_amended.2 "T" [["a"]] ["H"] [3] [Justify.left]
    "H  \n" ["a  \n"] (by decide) (by decide) (by decide)

/-- Claim C5 counterexample: when the items list is shorter than the zipped
justification/width slot list, `str.format` raises `IndexError` instead of
truncating. -/
theorem format_line_short_items_cex :
    format_line ["a"] [5, 5] [Justify.right, Justify.right] = none := by
  decide

/-- Claim C5 (amended): `format_line` pairwise consumes justifications and
widths (the shorter of the two truncates the columns) and ignores extra
items, but it succeeds exactly when the items list is at least as long as the
zipped slot list; with fewer items it raises instead of truncating. -/
theorem format_line_pairwise_amended :
    ∀ (items : List String) (ws : List Nat) (js : List Justify),
      ((format_line items ws js).isSome ↔ (js.zip ws).length ≤ items.length) ∧
      format_line items ws js =
        format_line (items.take (js.zip ws).length) ws js := by
  intro items ws js
  refine ⟨format_line_isSome_iff items ws js, ?_⟩
  by_cases h : items.length < (js.zip ws).length
  · rw [format_line_eq_none_of_lt _ _ _ h,
      format_line_eq_none_of_lt _ _ _ (by rw [List.length_take]; omega)]
  · have h' : (js.zip ws).length ≤ items.length := Nat.le_of_not_lt h
    simp only [format_line]
    rw [if_neg (Nat.not_lt.2 h'),
      if_neg (by rw [List.length_take]; omega), zip_take_eq]

/-- Claim C7 counterexample: the power section's column widths are
`10/10/10/10` in the code, not the `15/10/10/10` the spec lists for it. -/
theorem watts_widths_cex :
    wattsColumnWidths = [10, 10, 10, 10] ∧
    wattsColumnWidths ≠ [15, 10, 10, 10] := by
  decide

/-- Claim C7 (amended): the fixed per-category widths are memory
`15/20/20/20`, CPU `15/15/15/15`, CPU temperature `15/10/10/10`, power
`10/10/10/10`, and fans/GPUs/drives `15/15/15/15/15`. -/
theorem column_widths_amended :
    memColumnWidths = [15, 20, 20, 20] ∧
    cpuColumnWidths = [15, 15, 15, 15] ∧
    ctempsColumnWidths = [15, 10, 10, 10] ∧
    wattsColumnWidths = [10, 10, 10, 10] ∧
    fanColumnWidths = [15, 15, 15, 15, 15] ∧
    gpuColumnWidths = [15, 15, 15, 15, 15] ∧
    driveColumnWidths = [15, 15, 15, 15, 15] := by
  decide

theorem write_csv_foldl (rows : List (List String)) :
    ∀ s : String,
      rows.foldl write_csv (some s) = some (s ++ String.join (rows.map csvRow)) := by
  induction rows with
  | nil =>
      intro s
      have h0 : String.join [] = "" := rfl
      simp [h0, String.append_empty]
  | cons r rs ih =>
      intro s
      simp only [List.foldl_cons, List.map_cons]
      rw [show write_csv (some s) r = some (s ++ csvRow r) from rfl, ih,
        join_cons, String.append_assoc]

/-- Claim C8: appending K rows to a fresh path yields a file whose content is
exactly the K serialized rows concatenated in call order; each single call
creates the file if absent and only appends, leaving the previous content as
an unchanged prefix. -/
theorem write_csv_appends :
    (∀ (r : List String) (rows : List (List String)),
      (r :: rows).foldl write_csv none =
        some (String.join ((r :: rows).map csvRow))) ∧
    (∀ (st : String) (row : List String),
      write_csv (some st) row = some (st ++ csvRow row)) := by
  constructor
  · intro r rows
    simp only [List.foldl_cons, List.map_cons]
    rw [show write_csv none r = some ("" ++ csvRow r) from rfl,
      write_csv_foldl, String.empty_append, join_cons]
  · intro st row
    rfl

/-- Claim C9: a column width is only a minimum field width — display text at
least as long as the width is rendered in full, untruncated, so a formatted
line can be longer than the sum of the column widths. -/
theorem formatCell_no_truncation :
    ∀ (j : Justify) (w : Nat) (s : String), w ≤ s.length →
      formatCell j w s = s ∧ format_line [s] [w] [j] = some (s ++ "\n") := by
  intro j w s h
  have hpad : w - s.length = 0 := Nat.sub_eq_zero_of_le h
  have h0 : spaces 0 = "" := rfl
  have hcell : formatCell j w s = s := by
    cases j <;> simp [formatCell, hpad, h0]
  refine ⟨hcell, ?_⟩
  simp only [format_line]
  rw [if_neg (by simp)]
  rw [show ((([j].zip [w]).zip [s]).map (fun p => formatCell p.1.1 p.1.2 p.2)) =
      [formatCell j w s] from rfl, hcell, join_cons]
  rw [show String.join [] = "" from rfl, String.append_empty]

/-- Witness for Claim C9 at width 3 and the six-character text `"abcdef"`. -/
theorem formatCell_no_truncation_witness :
    formatCell Justify.left 3 "abcdef" = "abcdef" ∧
    format_line ["abcdef"] [3] [Justify.left] = some ("abcdef" ++ "\n") :=
  formatCell_no_truncation Justify.left 3 "abcdef" (by decide)

/-- Claim C1 counterexample: in the drive section a discriminator run all of
whose records have an absent current value contributes no emitted group, so
two runs yield one group and the first run's record appears in no group. -/
theorem drives_groups_cex :
    (drivesGroups ⟨false, fun _ => "M",
        [⟨"sda", "temp", none, "1", "2", "3"⟩,
         ⟨"sdb", "temp", some "5", "1", "2", "3"⟩]⟩).length = 1 ∧
    (runsSplit (fun d => d.device)
        ([⟨"sda", "temp", none, "1", "2", "3"⟩,
          ⟨"sdb", "temp", some "5", "1", "2", "3"⟩] : List DriveRec)).length = 2 ∧
    ((drivesGroups ⟨false, fun _ => "M",
        [⟨"sda", "temp", none, "1", "2", "3"⟩,
         ⟨"sdb", "temp", some "5", "1", "2", "3"⟩]⟩).map ReportGroup.rows).flatten =
      [["temp", "5", "1", "2", "3"]] := by
  refine ⟨rfl, ?_, rfl⟩
  simp [runsSplit]

/-- Claim C1 (amended): for memory and fans the number of flushed groups
equals the number of contiguous discriminator runs and the concatenation of
the groups' rows is exactly one row per input record, in order (the final
group included).  For drives, records with an absent current value are
omitted, the emitted rows are exactly the present-current records in order,
and the group count is the number of runs containing at least one
present-current record.  For GPUs, rendering any non-empty record sequence
(whose first record has a non-empty device name) fails on the one-cell
synthetic device-name row, so the section produces no output at all. -/
theorem multi_group_sections_amended :
    (∀ recs : List MemRec, recs ≠ [] →
      (memGroups recs).length = (runsSplit (fun r => r.mtype) recs).length ∧
      ((memGroups recs).map ReportGroup.rows).flatten = recs.map memRow) ∧
    (∀ recs : List FanRec, recs ≠ [] →
      (fanGroups recs).length = (runsSplit (fun r => r.driver) recs).length ∧
      ((fanGroups recs).map ReportGroup.rows).flatten = recs.map fanRow) ∧
    (∀ cat : DriveCat,
      (drivesGroups cat).length = countPresentRuns cat.recs ∧
      ((drivesGroups cat).map ReportGroup.rows).flatten =
        (cat.recs.filter (fun d => d.current.isSome)).map driveRow) ∧
    (∀ (cat : GpuCat) (p : GpuRec) (ps : List GpuRec),
      cat.is_empty = false → cat.recs = p :: ps → p.name ≠ "" →
      gpusSection cat = none) :=
  ⟨fun recs h => ⟨memGroups_length recs h, memGroups_rows recs⟩,
   fun recs h => ⟨fanGroups_length recs h, fanGroups_rows recs⟩,
   fun cat => ⟨drivesGroups_length cat, drivesGroups_rows cat⟩,
   gpusSection_eq_none⟩

/-- Witness for the amended Claim C1 at concrete one- and two-record
categories. -/
theorem multi_group_sections_amended_witness :
    ((memGroups [⟨"A", "ch0", "1", "2", "3"⟩]).length =
        (runsSplit (fun r => r.mtype)
          [(⟨"A", "ch0", "1", "2", "3"⟩ : MemRec)]).length ∧
      ((memGroups [⟨"A", "ch0", "1", "2", "3"⟩]).map ReportGroup.rows).flatten =
        [(⟨"A", "ch0", "1", "2", "3"⟩ : MemRec)].map memRow) ∧
    ((fanGroups [⟨"drv", "fan1", "5", "1", "2", "3"⟩]).length =
        (runsSplit (fun r => r.driver)
          [(⟨"drv", "fan1", "5", "1", "2", "3"⟩ : FanRec)]).length ∧
      ((fanGroups [⟨"drv", "fan1", "5", "1", "2", "3"⟩]).map
          ReportGroup.rows).flatten =
        [(⟨"drv", "fan1", "5", "1", "2", "3"⟩ : FanRec)].map fanRow) ∧
    ((drivesGroups ⟨false, fun _ => "M",
        [⟨"sda", "t", some "4", "1", "2", "3"⟩]⟩).length =
        countPresentRuns [⟨"sda", "t", some "4", "1", "2", "3"⟩] ∧
      ((drivesGroups ⟨false, fun _ => "M",
          [⟨"sda", "t", some "4", "1", "2", "3"⟩]⟩).map ReportGroup.rows).flatten =
        ([(⟨"sda", "t", some "4", "1", "2", "3"⟩ : DriveRec)].filter
          (fun d => d.current.isSome)).map driveRow) ∧
    gpusSection ⟨false, "555", fun _ _ => "",
      [⟨"nvidia", "g1", "t", some "5", "4", "6", "5"⟩]⟩ = none :=
  ⟨multi_group_sections_amended.1 _ (by simp),
   multi_group_sections_amended.2.1 _ (by simp),
   multi_group_sections_amended.2.2.1 _,
   multi_group_sections_amended.2.2.2
     ⟨false, "555", fun _ _ => "", [⟨"nvidia", "g1", "t", some "5", "4", "6", "5"⟩]⟩
     ⟨"nvidia", "g1", "t", some "5", "4", "6", "5"⟩ [] rfl rfl (by decide)⟩

theorem cpuRows_eq_zipWith :
    ∀ (m : List CpuRec) (u : List UsageRec),
      cpuRows m u = List.zipWith cpuRowFn m u := by
  intro m
  induction m with
  | nil => intro u; rfl
  | cons a m ih =>
      intro u
      cases u with
      | nil => rfl
      | cons b u =>
          show ((a :: m).zip (b :: u)).map (fun p => cpuRowFn p.1 p.2) =
            cpuRowFn a b :: List.zipWith cpuRowFn m u
          rw [← ih]
          rfl

/-- Claim C6: the combined CPU frequency/usage block is ungrouped; with
aligned collections it holds exactly one data row per core, pairing the
usage record with the frequency record at the same position, each cell being
the composite `usage:freq` string for min, max and mean. -/
theorem cpu_section_pairing (m : List CpuRec) (u : List UsageRec)
    (h : m.length = u.length) :
    cpuRows m u = List.zipWith cpuRowFn m u ∧
    (cpuRows m u).length = m.length ∧
    (m ≠ [] → ∃ hl rls,
      cpuSection m u = some ("" :: hl :: (rls ++ ["\n"])) ∧
      rls.length = m.length) := by
  have hlen : (cpuRows m u).length = m.length := by
    simp [cpuRows, List.length_zip, h]
  refine ⟨cpuRows_eq_zipWith m u, hlen, ?_⟩
  intro hne
  have hrowsne : cpuRows m u ≠ [] := by
    intro h0
    apply hne
    have hl0 := congrArg List.length h0
    rw [hlen] at hl0
    exact List.length_eq_zero.1 hl0
  have hall : ∀ r ∈ cpuRows m u, (cpuJusts.zip cpuColumnWidths).length ≤ r.length := by
    intro r hr
    simp only [cpuRows, List.mem_map] at hr
    obtain ⟨p, _, rfl⟩ := hr
    simp [cpuRowFn, cpuJusts, cpuColumnWidths]
  obtain ⟨rls, hrls⟩ := format_lines_isSome cpuColumnWidths cpuJusts _ hall
  obtain ⟨hl, hhl⟩ :
      ∃ x, format_line cpuHeaders cpuColumnWidths cpuJusts = some x := ⟨_, rfl⟩
  refine ⟨hl, rls, ?_, ?_⟩
  · simp only [cpuSection, append_formatted_section,
      List.isEmpty_eq_false.2 hrowsne, Bool.false_eq_true, if_false, hhl, hrls]
  · rw [format_lines_length _ _ _ _ hrls, hlen]

/-- Witness for Claim C6 at one core. -/
theorem cpu_section_pairing_witness :
    cpuRows [⟨"Core 0", "1000", "4000", "2000"⟩] [⟨"5", "95", "50"⟩] =
        List.zipWith cpuRowFn [⟨"Core 0", "1000", "4000", "2000"⟩]
          [⟨"5", "95", "50"⟩] ∧
      (cpuRows [⟨"Core 0", "1000", "4000", "2000"⟩] [⟨"5", "95", "50"⟩]).length =
        1 ∧
      ([(⟨"Core 0", "1000", "4000", "2000"⟩ : CpuRec)] ≠ [] → ∃ hl rls,
        cpuSection [⟨"Core 0", "1000", "4000", "2000"⟩] [⟨"5", "95", "50"⟩] =
          some ("" :: hl :: (rls ++ ["\n"])) ∧ rls.length = 1) :=
  cpu_section_pairing [⟨"Core 0", "1000", "4000", "2000"⟩] [⟨"5", "95", "50"⟩]
    rfl

/-- Claim C10 counterexample: a call with a non-empty GPU category raises
while formatting the synthetic one-cell device-name row, so no document (and
in particular no preamble) is written at all. -/
theorem write_summary_gpu_crash_cex :
    write_summary ⟨"T", "R", "M", ⟨"C", []⟩, ⟨[]⟩, ⟨true, []⟩, ⟨true, []⟩,
      ⟨true, []⟩,
      ⟨false, "555", fun _ _ => "", [⟨"nvidia", "g1", "t", some "5", "4", "6", "5"⟩]⟩,
      ⟨true, fun _ => "", []⟩, ⟨false, [], []⟩⟩ = none := by
  rfl

/-- Claim C10 (amended): every call of `write_summary` that completes writes
a document that begins with the preamble (Summary, Model, Start Time,
Runtime, CPU model, one DIMM line per memory SKU) and is therefore never
empty; calls on which a section's formatting raises write nothing at all. -/
theorem write_summary_preamble_amended (od : OutputData) (s : String)
    (h : write_summary od = some s) :
    (∃ t, s = String.join (preambleLines od) ++ t) ∧ s ≠ "" := by
  simp only [write_summary, Option.bind_eq_some] at h
  obtain ⟨memL, hm, cpuL, hc, ctL, hct, wL, hw, fL, hf, gL, hg, dL, hd, hfin⟩ := h
  obtain rfl :
      String.join (preambleLines od ++ memL ++ cpuL ++ ctL ++ wL ++ fL ++
        gL ++ dL) = s := by
    simpa using hfin
  constructor
  · refine ⟨String.join (memL ++ (cpuL ++ (ctL ++ (wL ++ (fL ++ (gL ++ dL)))))),
      ?_⟩
    rw [← join_append]
    congr 1
    simp [List.append_assoc]
  · have expand :
        preambleLines od ++ memL ++ cpuL ++ ctL ++ wL ++ fL ++ gL ++ dL =
          ("Summary:\nModel: " ++ od.model_name ++ "\nStart Time: " ++
              od.time ++ "\n") ::
            (["Runtime: " ++ od.run_time ++ "\nCPU: " ++ od.mhz.model ++ "\n",
              "Memory SKUs:\n"] ++
              od.mem.skus.map (fun sku => "DIMM: " ++ sku ++ "\n") ++
              (memL ++ (cpuL ++ (ctL ++ (wL ++ (fL ++ (gL ++ dL))))))) := by
      simp [preambleLines, List.append_assoc]
    rw [expand, join_cons]
    intro hempty
    have hlen := congrArg String.length hempty
    simp only [String.length_append] at hlen
    have h16 : ("Summary:\nModel: " : String).length = 16 := rfl
    have hz : ("" : String).length = 0 := rfl
    rw [h16, hz] at hlen
    omega

/-- Witness for the amended Claim C10 at a snapshot with all hardware
categories empty, whose document is exactly the preamble. -/
theorem write_summary_preamble_amended_witness :
    (∃ t, "Summary:\nModel: M\nStart Time: T\nRuntime: R\nCPU: C\nMemory SKUs:\nDIMM: sku1\n" =
        String.join (preambleLines ⟨"T", "R", "M", ⟨"C", []⟩, ⟨[]⟩, ⟨true, []⟩,
          ⟨true, []⟩, ⟨true, []⟩, ⟨true, "555", fun _ _ => "", []⟩,
          ⟨true, fun _ => "", []⟩, ⟨false, ["sku1"], []⟩⟩) ++ t) ∧
    ("Summary:\nModel: M\nStart Time: T\nRuntime: R\nCPU: C\nMemory SKUs:\nDIMM: sku1\n" : String) ≠ "" :=
  write_summary_preamble_amended ⟨"T", "R", "M", ⟨"C", []⟩, ⟨[]⟩, ⟨true, []⟩,
    ⟨true, []⟩, ⟨true, []⟩, ⟨true, "555", fun _ _ => "", []⟩,
    ⟨true, fun _ => "", []⟩, ⟨false, ["sku1"], []⟩⟩ _ rfl
